import Mathlib

/-!
A shallow embedding of the CoinGecko API client (`lib/CoinGecko.js`): the
JavaScript value model needed for its parameter handling, the helper
predicates from `lib/helpers/utilities.js`, Node's `querystring.stringify`
percent-encoding, the request-option builder `_buildRequestOptions`, the
endpoint methods, and the response-to-envelope pipeline `_request`.

Helper modules (`lib/helpers/utilities.js`, `lib/helpers/constants.js`,
`lib/helpers/ReturnObject.js`) are not part of the provided sources; they
are modelled from the specification, as marked on each definition.
-/

/-- A JavaScript value, restricted to the shapes the client manipulates:
strings, (integral) numbers, booleans, arrays, plain objects (ordered
key-value field lists), `undefined` and `null`. -/
inductive JsVal where
  | str (s : String)
  | num (n : Int)
  | bool (b : Bool)
  | arr (elems : List JsVal)
  | obj (fields : List (String × JsVal))
  | undefined
  | null

namespace Utils

/-- `utilities.isString` — modelled from the spec: the argument is a string. -/
def isString : JsVal → Bool
  | .str _ => true
  | _ => false

/-- `utilities.isStringEmpty` — modelled from the spec: the argument is a
string of length zero (false for non-strings). -/
def isStringEmpty : JsVal → Bool
  | .str s => s.length == 0
  | _ => false

/-- `utilities.isObject` — modelled from the spec: the argument is a plain
key-value mapping (not an array, not a primitive). -/
def isObject : JsVal → Bool
  | .obj _ => true
  | _ => false

/-- `utilities.isArray` — modelled from the spec: the argument is an array. -/
def isArray : JsVal → Bool
  | .arr _ => true
  | _ => false

end Utils

/-- The error values the client signals. `warn title detail` is the error
raised by `utilities._WARN_(title, detail)`. Modelled from the spec:
invalid-parameter / missing-parameter / invalid-request conditions raise an
error carrying the given title and detail. `jsonError` carries the message
of a JSON parse failure. -/
inductive JsError where
  | warn (title detail : String)
  | jsonError (msg : String)
deriving DecidableEq, Repr

/-- `utilities._WARN_` — modelled from the spec: signals an error with the
given title and detail (raised synchronously in validation paths; inside the
response handler it is caught by the surrounding try/catch and rejects). -/
def Utils_WARN (title detail : String) : JsError := JsError.warn title detail

/-- `constants.API_VERSION` — modelled from the spec: the fixed API version
segment, `3` (paths are prefixed with `/api/v3`). -/
def API_VERSION : String := "3"

/-- `constants.HOST` — modelled from the spec: the fixed API host. -/
def HOST : String := "api.coingecko.com"

/-- JavaScript property read `v[k]`: the first field with key `k` of a plain
object, `undefined` when absent. -/
def getField : List (String × JsVal) → String → JsVal
  | [], _ => .undefined
  | (k', v) :: rest, k => if k' = k then v else getField rest k

/-- JavaScript property assignment on a field list: replace the first field
with key `k` in place, or append the field when the key is new. -/
def setField : List (String × JsVal) → String → JsVal → List (String × JsVal)
  | [], k, v => [(k, v)]
  | (k', v') :: rest, k, v =>
    if k' = k then (k, v) :: rest else (k', v') :: setField rest k v

/-- Property read on a `JsVal` (only ever reached on plain objects). -/
def getProp (v : JsVal) (k : String) : JsVal :=
  match v with
  | .obj fields => getField fields k
  | _ => .undefined

/-- Property assignment on a `JsVal` (only ever reached on plain objects). -/
def setProp (v : JsVal) (k : String) (x : JsVal) : JsVal :=
  match v with
  | .obj fields => .obj (setField fields k x)
  | other => other

/-- The element list of an array value. -/
def jsElems : JsVal → List JsVal
  | .arr xs => xs
  | _ => []

/-- Join with a comma separator, as `Array.prototype.join(',')` does. -/
def joinComma : List String → String
  | [] => ""
  | [t] => t
  | t :: rest => t ++ "," ++ joinComma rest

/-- How `Array.prototype.join(',')` converts one element to text: strings
stay themselves, numbers and booleans print, `null`/`undefined` become the
empty string, nested arrays join recursively, plain objects print as
`[object Object]`. -/
def jsJoinElem : JsVal → String
  | .str s => s
  | .num n => toString n
  | .bool b => cond b "true" "false"
  | .undefined => ""
  | .null => ""
  | .obj _ => "[object Object]"
  | .arr xs => joinComma (xs.attach.map fun x => jsJoinElem x.1)
decreasing_by
  have h := List.sizeOf_lt_of_mem x.2
  simp only [JsVal.arr.sizeOf_spec]
  omega

/-- `xs.join(',')` on a JavaScript array's elements. -/
def jsArrayJoin (xs : List JsVal) : String :=
  joinComma (xs.map jsJoinElem)

/-- `String(v)`: template-literal interpolation of a JavaScript value. Like
join-element conversion except that a top-level `undefined`/`null` prints
its own name. -/
def jsToString : JsVal → String
  | .str s => s
  | .num n => toString n
  | .bool b => cond b "true" "false"
  | .undefined => "undefined"
  | .null => "null"
  | .obj _ => "[object Object]"
  | .arr xs => jsArrayJoin xs

/-- `String.prototype.startsWith`, modelled computably as a prefix test on
the character list. -/
def strStartsWith (s pre : String) : Bool :=
  pre.data.isPrefixOf s.data

/-- `String.prototype.toUpperCase`, modelled computably character by
character. -/
def strToUpper (s : String) : String :=
  String.mk (s.data.map Char.toUpper)

/-- Uppercase hexadecimal digit for `n < 16`. -/
def hexDigit (n : Nat) : Char :=
  if n < 10 then Char.ofNat (48 + n) else Char.ofNat (55 + n)

/-- The bytes Node's `querystring.escape` leaves unescaped: ASCII
alphanumerics and `! ' ( ) * - . _ ~` (the `encodeURIComponent` set). -/
def allowedByte (b : Nat) : Bool :=
  (48 ≤ b && b ≤ 57) || (65 ≤ b && b ≤ 90) || (97 ≤ b && b ≤ 122) ||
  b == 33 || b == 39 || b == 40 || b == 41 || b == 42 ||
  b == 45 || b == 46 || b == 95 || b == 126

/-- UTF-8 encoding of one character, as byte values. -/
def utf8Bytes (c : Char) : List Nat :=
  let n := c.toNat
  if n < 128 then [n]
  else if n < 2048 then [192 + n / 64, 128 + n % 64]
  else if n < 65536 then [224 + n / 4096, 128 + (n / 64) % 64, 128 + n % 64]
  else [240 + n / 262144, 128 + (n / 4096) % 64, 128 + (n / 64) % 64, 128 + n % 64]

/-- Percent-encode a byte sequence: allowed bytes pass through, every other
byte becomes `%HH` with uppercase hexadecimal digits. -/
def escapeBytes : List Nat → List Char
  | [] => []
  | b :: rest =>
    (if allowedByte b then [Char.ofNat b]
     else ['%', hexDigit (b / 16), hexDigit (b % 16)]) ++ escapeBytes rest

/-- Node's `querystring.escape`: percent-encoding of the UTF-8 bytes of a
string, leaving the `encodeURIComponent` unescaped set intact. -/
def qsEscape (s : String) : String :=
  String.mk (escapeBytes (s.data.foldr (fun c acc => utf8Bytes c ++ acc) []))

/-- Node's `querystring` primitive stringification: strings stay themselves,
numbers and booleans print, everything else becomes the empty string. -/
def stringifyPrimitive : JsVal → String
  | .str s => s
  | .num n => toString n
  | .bool b => cond b "true" "false"
  | _ => ""

/-- The `key=value` tokens `querystring.stringify` produces, in field order:
one token per field, except that an array value contributes one token per
element under the same key. Keys and values are escaped. -/
def qsTokens : List (String × JsVal) → List String
  | [] => []
  | (k, v) :: rest =>
    (match v with
     | .arr xs => xs.map fun x => qsEscape k ++ "=" ++ qsEscape (stringifyPrimitive x)
     | _ => [qsEscape k ++ "=" ++ qsEscape (stringifyPrimitive v)]) ++ qsTokens rest

/-- Join query tokens with `&`, as `querystring.stringify` does. -/
def joinAmp : List String → String
  | [] => ""
  | [t] => t
  | t :: rest => t ++ "&" ++ joinAmp rest

/-- Node's `querystring.stringify` on a plain object's field list. -/
def qsStringify (fields : List (String × JsVal)) : String :=
  joinAmp (qsTokens fields)

/-- The options record built for `https.request`. -/
structure RequestOptions where
  path : String
  method : String
  host : String
  port : Nat
deriving DecidableEq, Repr

namespace CoinGecko

/-- `CoinGecko._buildRequestOptions(method, path, params)`: uppercase the
method, stringify `params` when it is a plain object (anything else becomes
`undefined`), prefix the versioned segment, and append `?` plus the query
string whenever the stringified params is not `undefined` — in JavaScript an
empty string is not loosely equal to `undefined`, so an empty object still
gets a bare `?` appended. -/
def _buildRequestOptions (method path : String) (params : JsVal) : RequestOptions :=
  let method := strToUpper method
  let qs : Option String :=
    if Utils.isObject params then
      some (qsStringify (match params with | .obj fields => fields | _ => []))
    else none
  let path :=
    match qs with
    | none => "/api/v" ++ API_VERSION ++ path
    | some q => "/api/v" ++ API_VERSION ++ path ++ "?" ++ q
  { path := path, method := method, host := HOST, port := 443 }

/-- The guard every required path-segment identifier goes through:
`!Utils.isString(x) || Utils.isStringEmpty(x)`. -/
def invalidId (v : JsVal) : Bool :=
  !(Utils.isString v) || Utils.isStringEmpty v

/-- The `vs_currency` defaulting test of `coins.markets` and
`coins.fetchMarketChart`: `!Utils.isString(params['vs_currency']) ||
Utils.isStringEmpty(params['vs_currency'])`. -/
def missingVsCurrency (params : JsVal) : Bool :=
  !(Utils.isString (getProp params "vs_currency")) ||
    Utils.isStringEmpty (getProp params "vs_currency")

/-- The `date` guard of `coins.fetchHistory`:
`!Utils.isString(params['date']) || Utils.isStringEmpty(params['date'])`. -/
def missingDate (params : JsVal) : Bool :=
  !(Utils.isString (getProp params "date")) ||
    Utils.isStringEmpty (getProp params "date")

/-- JavaScript loose equality `v == undefined`: true exactly for
`undefined` and `null`. Used by the `params['days'] == undefined` check. -/
def looseEqUndefined : JsVal → Bool
  | .undefined => true
  | .null => true
  | _ => false

/-- `coins.fetch(coinId, params)`: validate the coin id, then build the
request for `/coins/<coinId>`. An error value means the error was raised
before any network call; an `ok` value is the request that gets issued. -/
def coins.fetch (coinId params : JsVal) : Except JsError RequestOptions :=
  if invalidId coinId then
    .error (Utils_WARN "Invalid parameter"
      "coinId must be of type: String and greater than 0 characters.")
  else
    .ok (_buildRequestOptions "GET" ("/coins/" ++ jsToString coinId) params)

/-- `coins.fetchTickers(coinId, params)`. -/
def coins.fetchTickers (coinId params : JsVal) : Except JsError RequestOptions :=
  if invalidId coinId then
    .error (Utils_WARN "Invalid parameter"
      "coinId must be of type: String and greater than 0 characters.")
  else
    .ok (_buildRequestOptions "GET" ("/coins/" ++ jsToString coinId ++ "/tickers") params)

/-- `coins.fetchStatusUpdates(coinId, params)`. -/
def coins.fetchStatusUpdates (coinId params : JsVal) : Except JsError RequestOptions :=
  if invalidId coinId then
    .error (Utils_WARN "Invalid parameter"
      "coinId must be of type: String and greater than 0 characters.")
  else
    .ok (_buildRequestOptions "GET" ("/coins/" ++ jsToString coinId ++ "/status_updates") params)

/-- `coins.fetchHistory(coinId, params)`: validate the coin id, require
`params` to be an object, require a non-empty string `date`, then build the
request for `/coins/<coinId>/history`. -/
def coins.fetchHistory (coinId params : JsVal) : Except JsError RequestOptions :=
  if invalidId coinId then
    .error (Utils_WARN "Invalid parameter"
      "coinId must be of type: String and greater than 0 characters.")
  else if !(Utils.isObject params) then
    .error (Utils_WARN "Invalid parameter" "params must be of type: Object")
  else if missingDate params then
    .error (Utils_WARN "Missing parameter"
      "params must include `date` and be a string in format: `dd-mm-yyyy`")
  else
    .ok (_buildRequestOptions "GET" ("/coins/" ++ jsToString coinId ++ "/history") params)

/-- The field list of a plain object. -/
def jsFields : JsVal → List (String × JsVal)
  | .obj fields => fields
  | _ => []

/-- The `vs_currency` defaulting statement shared by `coins.markets` and
`coins.fetchMarketChart`: assign `params.vs_currency = 'usd'` when it is
absent, not a string, or empty. -/
def vsCurrencyStep (fields : List (String × JsVal)) : List (String × JsVal) :=
  if missingVsCurrency (JsVal.obj fields) then setField fields "vs_currency" (JsVal.str "usd")
  else fields

/-- The `ids` statement of `coins.markets`: when `params.ids` is an array,
assign `params.ids = params.ids.join(',')`. -/
def marketsIdsStep (fields : List (String × JsVal)) : List (String × JsVal) :=
  if Utils.isArray (getField fields "ids") then
    setField fields "ids" (JsVal.str (jsArrayJoin (jsElems (getField fields "ids"))))
  else fields

/-- The `days` statement of `coins.fetchMarketChart`: when
`params.days == undefined` (loose equality, so also for `null`), assign
`params.days = 1`. -/
def chartDaysStep (fields : List (String × JsVal)) : List (String × JsVal) :=
  if looseEqUndefined (getField fields "days") then setField fields "days" (JsVal.num 1)
  else fields

/-- The parameter-defaulting statements of `coins.markets`, in source
order, as a transformation of the caller's params object. -/
def marketsParamSteps (fields : List (String × JsVal)) : List (String × JsVal) :=
  marketsIdsStep (vsCurrencyStep fields)

/-- `coins.markets(params)`: require `params` to be an object, default
`vs_currency` to `usd`, join an array `ids` into a comma-separated string
(both by assignment on the caller's object), then build the request. The
first component of the result is the caller's params object after those
in-place writes. -/
def coins.markets (params : JsVal) : Except JsError (JsVal × RequestOptions) :=
  if !(Utils.isObject params) then
    .error (Utils_WARN "Invalid parameter" "params must be of type: Object")
  else
    let params2 := JsVal.obj (marketsParamSteps (jsFields params))
    .ok (params2, _buildRequestOptions "GET" "/coins/markets" params2)

/-- The parameter-defaulting statements of `coins.fetchMarketChart`, in
source order, as a transformation of the caller's params object. -/
def chartParamSteps (fields : List (String × JsVal)) : List (String × JsVal) :=
  chartDaysStep (vsCurrencyStep fields)

/-- `coins.fetchMarketChart(coinId, params)`: validate the coin id, require
`params` to be an object, default `vs_currency` to `usd` and `days` to `1`
(the latter when `params['days'] == undefined`, which is also true for
`null`), then build the request. The first component of the result is the
caller's params object after those in-place writes. -/
def coins.fetchMarketChart (coinId params : JsVal) :
    Except JsError (JsVal × RequestOptions) :=
  if invalidId coinId then
    .error (Utils_WARN "Invalid parameter"
      "coinId must be of type: String and greater than 0 characters.")
  else if !(Utils.isObject params) then
    .error (Utils_WARN "Invalid parameter" "params must be of type: Object")
  else
    let params2 := JsVal.obj (chartParamSteps (jsFields params))
    .ok (params2,
      _buildRequestOptions "GET" ("/coins/" ++ jsToString coinId ++ "/market_chart") params2)

/-- `exchanges.fetch(exchangeId)`: validate the exchange id, then build the
request for `/exchanges/<exchangeId>` (no params are passed through). -/
def exchanges.fetch (exchangeId : JsVal) : Except JsError RequestOptions :=
  if invalidId exchangeId then
    .error (Utils_WARN "Invalid parameter"
      "exchangeId must be of type: String and greater than 0 characters.")
  else
    .ok (_buildRequestOptions "GET" ("/exchanges/" ++ jsToString exchangeId) JsVal.undefined)

/-- `exchanges.fetchTickers(exchangeId, params)`. -/
def exchanges.fetchTickers (exchangeId params : JsVal) : Except JsError RequestOptions :=
  if invalidId exchangeId then
    .error (Utils_WARN "Invalid parameter"
      "exchangeId must be of type: String and greater than 0 characters.")
  else
    .ok (_buildRequestOptions "GET"
      ("/exchanges/" ++ jsToString exchangeId ++ "/tickers") params)

/-- `exchanges.fetchStatusUpdates(exchangeId, params)`. -/
def exchanges.fetchStatusUpdates (exchangeId params : JsVal) : Except JsError RequestOptions :=
  if invalidId exchangeId then
    .error (Utils_WARN "Invalid parameter"
      "exchangeId must be of type: String and greater than 0 characters.")
  else
    .ok (_buildRequestOptions "GET"
      ("/exchanges/" ++ jsToString exchangeId ++ "/status_updates") params)

/-- `onChain.tokenPrice(network, addresses)`: no validation is performed;
the arguments are interpolated straight into the path and the request is
built (no params are passed through). -/
def onChain.tokenPrice (network addresses : JsVal) : Except JsError RequestOptions :=
  .ok (_buildRequestOptions "GET"
    ("/onchain/simple/networks/" ++ jsToString network ++ "/token_price/" ++
      jsToString addresses) JsVal.undefined)

/-- `onChain.dexes(network, params)`: no validation is performed on the
network id. -/
def onChain.dexes (network params : JsVal) : Except JsError RequestOptions :=
  .ok (_buildRequestOptions "GET"
    ("/onchain/networks/" ++ jsToString network ++ "/dexes") params)

/-- One completed HTTPS round-trip as `_request`'s response handler sees it:
the status line plus the concatenated, text-decoded body chunks. -/
structure HttpResponse where
  statusCode : Nat
  statusMessage : String
  body : String

/-- The result envelope built by `helpers/ReturnObject.js` — modelled from
the spec: `\x7b success, message, code, data \x7d`. -/
structure ReturnObject (J : Type) where
  success : Bool
  message : String
  code : Nat
  data : J
deriving DecidableEq, Repr

/-- How the promise returned by `_request` settles: a promise settles once,
so the first `reject`/`resolve` call wins and later calls are no-ops. -/
inductive Settle (J : Type) where
  | rejected (e : JsError)
  | resolved (val : ReturnObject J)
deriving DecidableEq, Repr

/-- The response handler of `CoinGecko._request`, for a completed round-trip
(transport errors reject earlier and never reach this code). `jsonParse`
abstracts the platform's `JSON.parse`, returning the parsed value or the
parse error's message. Control flow of the source: inside the try block, a
body starting with the HTML document marker raises the invalid-request
error (`_WARN_`, modelled from the spec as raising) before `JSON.parse` is
attempted; any raise is caught by the catch block, which rejects. The
unconditional `resolve` after the try/catch is then a no-op, because the
promise has already settled. Otherwise the parsed body is wrapped in the
envelope, whose success flag is `!(statusCode < 200 || statusCode >= 300)`. -/
def _request {J : Type} (jsonParse : String → Except String J)
    (res : HttpResponse) : Settle J :=
  if strStartsWith res.body "<!DOCTYPE html>" then
    Settle.rejected (Utils_WARN "Invalid request"
      "There was a problem with your request. The parameter(s) you gave are missing or incorrect.")
  else
    match jsonParse res.body with
    | .error e => Settle.rejected (JsError.jsonError e)
    | .ok data =>
      Settle.resolved
        { success := !(decide (res.statusCode < 200) || decide (res.statusCode ≥ 300)),
          message := res.statusMessage,
          code := res.statusCode,
          data := data }

end CoinGecko

/-- The query string as the specification describes it (sections 4.1 and
8): one percent-encoded `key=value` pair per field of the mapping, in the
order provided, joined by the ampersand separator. -/
def querySpecTokens (fields : List (String × JsVal)) : List String :=
  fields.map fun kv => qsEscape kv.1 ++ "=" ++ qsEscape (stringifyPrimitive kv.2)

/-- The full spec-side query string. -/
def querySpec (fields : List (String × JsVal)) : String :=
  joinAmp (querySpecTokens fields)

/-- A concrete JSON parse function for the C1 witness: it accepts exactly
the body `[1]`. -/
def c1Parse : String → Except String String :=
  fun s => if s = "[1]" then .ok "[1]" else .error "Unexpected token"

/-- A JSON parse function for the C4 witness that accepts every body: even
then an HTML body is rejected, because parsing is not attempted. -/
def c4Parse : String → Except String String := fun s => .ok s

/-! ## Basic lemmas about field lists and query tokens -/

theorem getField_setField_self (l : List (String × JsVal)) (k : String) (v : JsVal) :
    getField (setField l k v) k = v := by
  induction l with
  | nil => simp [setField, getField]
  | cons hd tl ih =>
    obtain ⟨k', v'⟩ := hd
    by_cases h : k' = k
    · simp [setField, getField, h]
    · simp [setField, getField, h, ih]

theorem getField_setField_ne (l : List (String × JsVal)) (k k' : String) (v : JsVal)
    (h : k ≠ k') : getField (setField l k v) k' = getField l k' := by
  induction l with
  | nil => simp [setField, getField, h]
  | cons hd tl ih =>
    obtain ⟨k0, v0⟩ := hd
    by_cases h0 : k0 = k
    · subst h0
      simp [setField, getField, h]
    · simp [setField, getField, h0, ih]

theorem mem_setField_self (l : List (String × JsVal)) (k : String) (v : JsVal) :
    (k, v) ∈ setField l k v := by
  induction l with
  | nil => simp [setField]
  | cons hd tl ih =>
    obtain ⟨k0, v0⟩ := hd
    by_cases h : k0 = k <;> simp [setField, h, ih]

theorem mem_setField_of_mem (l : List (String × JsVal)) (k k' : String) (v v' : JsVal)
    (hmem : (k', v') ∈ l) (hne : k' ≠ k) : (k', v') ∈ setField l k v := by
  induction l with
  | nil => simp at hmem
  | cons hd tl ih =>
    obtain ⟨k0, v0⟩ := hd
    rcases List.mem_cons.mp hmem with heq | htl
    · obtain ⟨rfl, rfl⟩ := Prod.mk.injEq .. ▸ heq
      have h0 : k' ≠ k := hne
      simp [setField, h0]
    · by_cases h : k0 = k <;> simp [setField, h]
      · right
        exact htl
      · right
        exact ih htl

theorem mem_qsTokens (l : List (String × JsVal)) (k : String) (v : JsVal)
    (hmem : (k, v) ∈ l) (hnarr : Utils.isArray v = false) :
    (qsEscape k ++ "=" ++ qsEscape (stringifyPrimitive v)) ∈ qsTokens l := by
  induction l with
  | nil => simp at hmem
  | cons hd tl ih =>
    obtain ⟨k0, v0⟩ := hd
    rcases List.mem_cons.mp hmem with heq | htl
    · obtain ⟨rfl, rfl⟩ := Prod.mk.injEq .. ▸ heq
      cases v <;> simp_all [qsTokens, Utils.isArray]
    · cases v0 <;> (simp only [qsTokens]; exact List.mem_append_right _ (ih htl))

/-! ## Request-option builder lemmas -/

theorem buildOptions_obj (m p : String) (fields : List (String × JsVal)) :
    CoinGecko._buildRequestOptions m p (JsVal.obj fields) =
      { path := "/api/v" ++ API_VERSION ++ p ++ "?" ++ qsStringify fields,
        method := strToUpper m, host := HOST, port := 443 } := rfl

theorem buildOptions_not_obj (m p : String) (params : JsVal)
    (h : Utils.isObject params = false) :
    CoinGecko._buildRequestOptions m p params =
      { path := "/api/v" ++ API_VERSION ++ p,
        method := strToUpper m, host := HOST, port := 443 } := by
  simp [CoinGecko._buildRequestOptions, h]

/-- The envelope's success flag, written as the source computes it, agrees
with membership of the status code in the half-open range `[200, 300)`. -/
theorem success_flag_eq_range (c : Nat) :
    (!(decide (c < 200) || decide (c ≥ 300))) = decide (200 ≤ c ∧ c < 300) := by
  by_cases h1 : c < 200 <;> by_cases h2 : c ≥ 300 <;> (simp [h1, h2]; try omega)

/-! ## C1 -/

/-- C1: for every completed HTTPS round-trip whose body parses as JSON, the
operation resolves (it does not reject) with the envelope
`\x7b success, message, code, data \x7d` in which `success` is true exactly
when the HTTP status code lies in `[200, 300)`. The hypothesis on
`jsonParse` records the JSON-grammar fact that no text beginning with the
HTML document marker parses as JSON (it begins with `<`). -/
theorem request_resolves_json_envelope {J : Type}
    (jsonParse : String → Except String J)
    (hgrammar : ∀ s, strStartsWith s "<!DOCTYPE html>" = true → ∃ e, jsonParse s = .error e)
    (res : CoinGecko.HttpResponse) (v : J) (hparse : jsonParse res.body = .ok v) :
    CoinGecko._request jsonParse res =
      CoinGecko.Settle.resolved
        { success := decide (200 ≤ res.statusCode ∧ res.statusCode < 300),
          message := res.statusMessage, code := res.statusCode, data := v } := by
  cases hb : strStartsWith res.body "<!DOCTYPE html>" with
  | true =>
    obtain ⟨e, he⟩ := hgrammar _ hb
    rw [he] at hparse
    exact absurd hparse (by simp)
  | false =>
    simp only [CoinGecko._request, hb, Bool.false_eq_true, if_false, hparse]
    rw [success_flag_eq_range]

theorem c1Parse_html (s : String) (h : strStartsWith s "<!DOCTYPE html>" = true) :
    ∃ e, c1Parse s = .error e := by
  by_cases hs : s = "[1]"
  · subst hs
    exact absurd h (by decide)
  · exact ⟨"Unexpected token", by simp [c1Parse, hs]⟩

/-- C1 witness: a simulated 404 response with the valid JSON body `[1]`
resolves (does not reject) with `success := false` and `code := 404`. -/
theorem request_resolves_json_envelope_witness :
    CoinGecko._request c1Parse
        { statusCode := 404, statusMessage := "Not Found", body := "[1]" } =
      CoinGecko.Settle.resolved
        { success := false, message := "Not Found", code := 404, data := "[1]" } := by
  have h := request_resolves_json_envelope c1Parse c1Parse_html
    { statusCode := 404, statusMessage := "Not Found", body := "[1]" } "[1]" rfl
  rw [h]
  have hs : decide (200 ≤ 404 ∧ 404 < 300) = false := by decide
  rw [hs]

/-! ## C4 -/

/-- C4: for every response whose decoded body begins with the HTML document
marker `<!DOCTYPE html>`, the operation results in the invalid-request error
(the error is raised before `JSON.parse` is reached in that branch, so the
outcome does not depend on the parse function at all), and it never resolves
to an envelope. -/
theorem request_rejects_html_body {J : Type}
    (jsonParse : String → Except String J) (res : CoinGecko.HttpResponse)
    (h : strStartsWith res.body "<!DOCTYPE html>" = true) :
    CoinGecko._request jsonParse res =
      CoinGecko.Settle.rejected (Utils_WARN "Invalid request"
        "There was a problem with your request. The parameter(s) you gave are missing or incorrect.") ∧
    ∀ env, CoinGecko._request jsonParse res ≠ CoinGecko.Settle.resolved env := by
  refine ⟨by simp [CoinGecko._request, h], ?_⟩
  intro env heq
  simp [CoinGecko._request, h] at heq

/-- C4 witness: a simulated response whose body starts with
`<!DOCTYPE html>` is rejected with the invalid-request error. -/
theorem request_rejects_html_body_witness :
    CoinGecko._request c4Parse
        { statusCode := 200, statusMessage := "OK",
          body := "<!DOCTYPE html><html></html>" } =
      CoinGecko.Settle.rejected (Utils_WARN "Invalid request"
        "There was a problem with your request. The parameter(s) you gave are missing or incorrect.") :=
  (request_rejects_html_body c4Parse
    { statusCode := 200, statusMessage := "OK",
      body := "<!DOCTYPE html><html></html>" } (by decide)).1

/-! ## C2 -/

/-- C2 counterexample: `onChain.tokenPrice` called with an empty-string
network identifier — an argument that is not a non-empty string — raises no
invalid-parameter error; it builds the request and issues it. -/
theorem tokenPrice_empty_network_not_validated :
    CoinGecko.onChain.tokenPrice (JsVal.str "") (JsVal.str "0xabc") =
      Except.ok { path := "/api/v3/onchain/simple/networks//token_price/0xabc",
                  method := "GET", host := "api.coingecko.com", port := 443 } := rfl

/-- C2 (amended): every endpoint method taking a required coin or exchange
identifier raises the invalid-parameter error synchronously, before any
network call, when the argument is not a non-empty string; the on-chain
methods taking a network identifier perform no such validation and always
build the request. -/
theorem id_validation_coin_exchange_only :
    (∀ id params, CoinGecko.invalidId id = true →
      CoinGecko.coins.fetch id params = .error (Utils_WARN "Invalid parameter"
        "coinId must be of type: String and greater than 0 characters.")) ∧
    (∀ id params, CoinGecko.invalidId id = true →
      CoinGecko.coins.fetchTickers id params = .error (Utils_WARN "Invalid parameter"
        "coinId must be of type: String and greater than 0 characters.")) ∧
    (∀ id params, CoinGecko.invalidId id = true →
      CoinGecko.coins.fetchStatusUpdates id params = .error (Utils_WARN "Invalid parameter"
        "coinId must be of type: String and greater than 0 characters.")) ∧
    (∀ id params, CoinGecko.invalidId id = true →
      CoinGecko.coins.fetchHistory id params = .error (Utils_WARN "Invalid parameter"
        "coinId must be of type: String and greater than 0 characters.")) ∧
    (∀ id params, CoinGecko.invalidId id = true →
      CoinGecko.coins.fetchMarketChart id params = .error (Utils_WARN "Invalid parameter"
        "coinId must be of type: String and greater than 0 characters.")) ∧
    (∀ id, CoinGecko.invalidId id = true →
      CoinGecko.exchanges.fetch id = .error (Utils_WARN "Invalid parameter"
        "exchangeId must be of type: String and greater than 0 characters.")) ∧
    (∀ id params, CoinGecko.invalidId id = true →
      CoinGecko.exchanges.fetchTickers id params = .error (Utils_WARN "Invalid parameter"
        "exchangeId must be of type: String and greater than 0 characters.")) ∧
    (∀ id params, CoinGecko.invalidId id = true →
      CoinGecko.exchanges.fetchStatusUpdates id params = .error (Utils_WARN "Invalid parameter"
        "exchangeId must be of type: String and greater than 0 characters.")) ∧
    (∀ network addresses, ∃ opts,
      CoinGecko.onChain.tokenPrice network addresses = Except.ok opts) ∧
    (∀ network params, ∃ opts,
      CoinGecko.onChain.dexes network params = Except.ok opts) := by
  refine ⟨?_, ?_, ?_, ?_, ?_, ?_, ?_, ?_, ?_, ?_⟩
  · intro id params h
    simp [CoinGecko.coins.fetch, h]
  · intro id params h
    simp [CoinGecko.coins.fetchTickers, h]
  · intro id params h
    simp [CoinGecko.coins.fetchStatusUpdates, h]
  · intro id params h
    simp [CoinGecko.coins.fetchHistory, h]
  · intro id params h
    simp [CoinGecko.coins.fetchMarketChart, h]
  · intro id h
    simp [CoinGecko.exchanges.fetch, h]
  · intro id params h
    simp [CoinGecko.exchanges.fetchTickers, h]
  · intro id params h
    simp [CoinGecko.exchanges.fetchStatusUpdates, h]
  · intro network addresses
    exact ⟨_, rfl⟩
  · intro network params
    exact ⟨_, rfl⟩

/-- C2 witness: `coins.fetch` called with the empty string raises the
invalid-parameter error and never builds a request. -/
theorem id_validation_coin_exchange_only_witness :
    CoinGecko.coins.fetch (JsVal.str "") JsVal.undefined =
      Except.error (Utils_WARN "Invalid parameter"
        "coinId must be of type: String and greater than 0 characters.") :=
  id_validation_coin_exchange_only.1 (JsVal.str "") JsVal.undefined (by decide)

/-! ## C3 -/

/-- C3: `coins.fetchHistory`, called with a valid coin identifier and a
params mapping that lacks a `date` entry (or whose `date` is not a non-empty
string), raises the missing-parameter error without making a network call. -/
theorem fetchHistory_missing_date (coinId params : JsVal)
    (hid : CoinGecko.invalidId coinId = false) (hobj : Utils.isObject params = true)
    (hdate : CoinGecko.missingDate params = true) :
    CoinGecko.coins.fetchHistory coinId params =
      .error (Utils_WARN "Missing parameter"
        "params must include `date` and be a string in format: `dd-mm-yyyy`") := by
  simp [CoinGecko.coins.fetchHistory, hid, hobj, hdate]

/-- C3 witness: `coins.fetchHistory` with an empty params mapping (no `date`
entry) raises the missing-parameter error. -/
theorem fetchHistory_missing_date_witness :
    CoinGecko.coins.fetchHistory (JsVal.str "bitcoin") (JsVal.obj []) =
      Except.error (Utils_WARN "Missing parameter"
        "params must include `date` and be a string in format: `dd-mm-yyyy`") :=
  fetchHistory_missing_date (JsVal.str "bitcoin") (JsVal.obj [])
    (by decide) (by decide) (by decide)

/-! ## C8 -/

/-- C8 counterexample: an empty parameter mapping does not leave the path
bare — `querystring.stringify` of an empty object is the empty string, which
is not loosely equal to `undefined` in JavaScript, so a `?` is still
appended to the path. -/
theorem buildOptions_empty_mapping_appends_question_mark :
    (CoinGecko._buildRequestOptions "GET" "/ping" (JsVal.obj [])).path =
      "/api/v3/ping?" := rfl

/-- C8 (amended): every built path begins with the fixed version prefix
followed by the endpoint template; an absent or non-object parameter mapping
yields no query string (no `?`); an empty parameter mapping yields a
trailing `?` with an empty query string. -/
theorem built_path_starts_with_version :
    (∀ m p params, ∃ rest,
      (CoinGecko._buildRequestOptions m p params).path =
        "/api/v" ++ API_VERSION ++ p ++ rest) ∧
    (∀ m p params, Utils.isObject params = false →
      (CoinGecko._buildRequestOptions m p params).path =
        "/api/v" ++ API_VERSION ++ p) ∧
    (∀ m p, (CoinGecko._buildRequestOptions m p (JsVal.obj [])).path =
      "/api/v" ++ API_VERSION ++ p ++ "?") := by
  refine ⟨?_, ?_, ?_⟩
  · intro m p params
    by_cases h : Utils.isObject params = true
    · obtain ⟨fields, rfl⟩ : ∃ fields, params = JsVal.obj fields := by
        cases params <;> simp_all [Utils.isObject]
      exact ⟨"?" ++ qsStringify fields,
        by rw [buildOptions_obj, String.append_assoc]⟩
    · refine ⟨"", ?_⟩
      rw [buildOptions_not_obj m p params (by simpa using h), String.append_empty]
  · intro m p params h
    rw [buildOptions_not_obj m p params h]
  · intro m p
    rw [buildOptions_obj]
    show "/api/v" ++ API_VERSION ++ p ++ "?" ++ "" = _
    rw [String.append_empty]

/-- C8 witness: the three parts at concrete inputs — a populated mapping, an
absent mapping, and an empty mapping. -/
theorem built_path_starts_with_version_witness :
    (∃ rest, (CoinGecko._buildRequestOptions "GET" "/coins"
        (JsVal.obj [("page", JsVal.num 2)])).path = "/api/v" ++ API_VERSION ++ "/coins" ++ rest) ∧
    (CoinGecko._buildRequestOptions "GET" "/ping" JsVal.undefined).path =
      "/api/v" ++ API_VERSION ++ "/ping" ∧
    (CoinGecko._buildRequestOptions "GET" "/global" (JsVal.obj [])).path =
      "/api/v" ++ API_VERSION ++ "/global" ++ "?" :=
  ⟨built_path_starts_with_version.1 "GET" "/coins" (JsVal.obj [("page", JsVal.num 2)]),
   built_path_starts_with_version.2.1 "GET" "/ping" JsVal.undefined (by decide),
   built_path_starts_with_version.2.2 "GET" "/global"⟩

/-! ## C10 -/

/-- C10: a params argument that is not a plain key-value object (a string, a
number, a boolean, an array, `undefined`, `null`) is silently treated as
absent by the request-option builder: the result is exactly the result for
an absent params, its path carries no query string, and no error is raised
(the builder is total). -/
theorem non_object_params_treated_absent (method path : String) (params : JsVal)
    (h : Utils.isObject params = false) :
    CoinGecko._buildRequestOptions method path params =
      CoinGecko._buildRequestOptions method path JsVal.undefined ∧
    (CoinGecko._buildRequestOptions method path params).path =
      "/api/v" ++ API_VERSION ++ path := by
  constructor
  · rw [buildOptions_not_obj method path params h,
      buildOptions_not_obj method path JsVal.undefined (by decide)]
  · rw [buildOptions_not_obj method path params h]

/-- C10 witness: an array params argument yields the same options as an
absent one, with no query string. -/
theorem non_object_params_treated_absent_witness :
    CoinGecko._buildRequestOptions "GET" "/coins"
        (JsVal.arr [JsVal.str "bitcoin"]) =
      CoinGecko._buildRequestOptions "GET" "/coins" JsVal.undefined ∧
    (CoinGecko._buildRequestOptions "GET" "/coins"
        (JsVal.arr [JsVal.str "bitcoin"])).path = "/api/v" ++ API_VERSION ++ "/coins" :=
  non_object_params_treated_absent "GET" "/coins" (JsVal.arr [JsVal.str "bitcoin"])
    (by decide)


/-! ## Lemmas about the parameter-defaulting steps -/

theorem vsCurrencyStep_missing (fields : List (String × JsVal))
    (h : CoinGecko.missingVsCurrency (JsVal.obj fields) = true) :
    CoinGecko.vsCurrencyStep fields = setField fields "vs_currency" (JsVal.str "usd") := by
  simp [CoinGecko.vsCurrencyStep, h]

theorem vsCurrencyStep_getField_ne (fields : List (String × JsVal)) (k : String)
    (h : k ≠ "vs_currency") :
    getField (CoinGecko.vsCurrencyStep fields) k = getField fields k := by
  unfold CoinGecko.vsCurrencyStep
  by_cases hvs : CoinGecko.missingVsCurrency (JsVal.obj fields) = true
  · rw [if_pos hvs, getField_setField_ne _ _ _ _ (fun he => h he.symm)]
  · rw [if_neg hvs]

theorem marketsIdsStep_arr (fields : List (String × JsVal)) (xs : List JsVal)
    (h : getField fields "ids" = JsVal.arr xs) :
    CoinGecko.marketsIdsStep fields = setField fields "ids" (JsVal.str (jsArrayJoin xs)) := by
  simp [CoinGecko.marketsIdsStep, h, Utils.isArray, jsElems]

theorem marketsIdsStep_mem (fields : List (String × JsVal)) (k : String) (v : JsVal)
    (hmem : (k, v) ∈ fields) (hne : k ≠ "ids") :
    (k, v) ∈ CoinGecko.marketsIdsStep fields := by
  unfold CoinGecko.marketsIdsStep
  by_cases hids : Utils.isArray (getField fields "ids") = true
  · rw [if_pos hids]
    exact mem_setField_of_mem _ _ _ _ _ hmem hne
  · rw [if_neg hids]
    exact hmem

theorem marketsIdsStep_getField_ne (fields : List (String × JsVal)) (k : String)
    (hne : k ≠ "ids") :
    getField (CoinGecko.marketsIdsStep fields) k = getField fields k := by
  unfold CoinGecko.marketsIdsStep
  by_cases hids : Utils.isArray (getField fields "ids") = true
  · rw [if_pos hids, getField_setField_ne _ _ _ _ (fun he => hne he.symm)]
  · rw [if_neg hids]

theorem chartDaysStep_undefined (fields : List (String × JsVal))
    (h : CoinGecko.looseEqUndefined (getField fields "days") = true) :
    CoinGecko.chartDaysStep fields = setField fields "days" (JsVal.num 1) := by
  simp [CoinGecko.chartDaysStep, h]

theorem chartDaysStep_mem (fields : List (String × JsVal)) (k : String) (v : JsVal)
    (hmem : (k, v) ∈ fields) (hne : k ≠ "days") :
    (k, v) ∈ CoinGecko.chartDaysStep fields := by
  unfold CoinGecko.chartDaysStep
  by_cases hd : CoinGecko.looseEqUndefined (getField fields "days") = true
  · rw [if_pos hd]
    exact mem_setField_of_mem _ _ _ _ _ hmem hne
  · rw [if_neg hd]
    exact hmem

theorem marketsParamSteps_vs (fields : List (String × JsVal))
    (h : CoinGecko.missingVsCurrency (JsVal.obj fields) = true) :
    ("vs_currency", JsVal.str "usd") ∈ CoinGecko.marketsParamSteps fields ∧
    getField (CoinGecko.marketsParamSteps fields) "vs_currency" = JsVal.str "usd" := by
  unfold CoinGecko.marketsParamSteps
  rw [vsCurrencyStep_missing fields h]
  constructor
  · exact marketsIdsStep_mem _ _ _ (mem_setField_self _ _ _) (by decide)
  · rw [marketsIdsStep_getField_ne _ _ (by decide), getField_setField_self]

theorem marketsParamSteps_ids (fields : List (String × JsVal)) (xs : List JsVal)
    (h : getField fields "ids" = JsVal.arr xs) :
    getField (CoinGecko.marketsParamSteps fields) "ids" = JsVal.str (jsArrayJoin xs) ∧
    ("ids", JsVal.str (jsArrayJoin xs)) ∈ CoinGecko.marketsParamSteps fields := by
  unfold CoinGecko.marketsParamSteps
  have hids : getField (CoinGecko.vsCurrencyStep fields) "ids" = JsVal.arr xs := by
    rw [vsCurrencyStep_getField_ne _ _ (by decide)]
    exact h
  rw [marketsIdsStep_arr _ _ hids]
  exact ⟨getField_setField_self _ _ _, mem_setField_self _ _ _⟩

theorem chartParamSteps_vs (fields : List (String × JsVal))
    (h : CoinGecko.missingVsCurrency (JsVal.obj fields) = true) :
    ("vs_currency", JsVal.str "usd") ∈ CoinGecko.chartParamSteps fields ∧
    getField (CoinGecko.chartParamSteps fields) "vs_currency" = JsVal.str "usd" := by
  unfold CoinGecko.chartParamSteps
  rw [vsCurrencyStep_missing fields h]
  constructor
  · exact chartDaysStep_mem _ _ _ (mem_setField_self _ _ _) (by decide)
  · unfold CoinGecko.chartDaysStep
    by_cases hd : CoinGecko.looseEqUndefined
        (getField (setField fields "vs_currency" (JsVal.str "usd")) "days") = true
    · rw [if_pos hd, getField_setField_ne _ _ _ _ (by decide), getField_setField_self]
    · rw [if_neg hd, getField_setField_self]

theorem chartParamSteps_days (fields : List (String × JsVal))
    (h : CoinGecko.looseEqUndefined (getField fields "days") = true) :
    ("days", JsVal.num 1) ∈ CoinGecko.chartParamSteps fields ∧
    getField (CoinGecko.chartParamSteps fields) "days" = JsVal.num 1 := by
  unfold CoinGecko.chartParamSteps
  have hd : CoinGecko.looseEqUndefined
      (getField (CoinGecko.vsCurrencyStep fields) "days") = true := by
    rw [vsCurrencyStep_getField_ne _ _ (by decide)]
    exact h
  rw [chartDaysStep_undefined _ hd]
  exact ⟨mem_setField_self _ _ _, getField_setField_self _ _ _⟩

/-! ## C5 -/

/-- C5: `coins.markets` and `coins.fetchMarketChart` default a missing,
non-string, or empty `vs_currency` so that the request query carries the
token `vs_currency=usd`; and `coins.fetchMarketChart` defaults an undefined
`days` so that the query carries the token `days=1`. Each part spells out
the call's result: the request is built from the defaulted params object,
whose query-token list contains the defaulted pair. -/
theorem default_vs_currency_and_days :
    (∀ fields, CoinGecko.missingVsCurrency (JsVal.obj fields) = true →
      CoinGecko.coins.markets (JsVal.obj fields) =
        Except.ok (JsVal.obj (CoinGecko.marketsParamSteps fields),
          CoinGecko._buildRequestOptions "GET" "/coins/markets"
            (JsVal.obj (CoinGecko.marketsParamSteps fields))) ∧
      "vs_currency=usd" ∈ qsTokens (CoinGecko.marketsParamSteps fields)) ∧
    (∀ coinId fields, CoinGecko.invalidId coinId = false →
      CoinGecko.missingVsCurrency (JsVal.obj fields) = true →
      CoinGecko.coins.fetchMarketChart coinId (JsVal.obj fields) =
        Except.ok (JsVal.obj (CoinGecko.chartParamSteps fields),
          CoinGecko._buildRequestOptions "GET"
            ("/coins/" ++ jsToString coinId ++ "/market_chart")
            (JsVal.obj (CoinGecko.chartParamSteps fields))) ∧
      "vs_currency=usd" ∈ qsTokens (CoinGecko.chartParamSteps fields)) ∧
    (∀ coinId fields, CoinGecko.invalidId coinId = false →
      CoinGecko.looseEqUndefined (getField fields "days") = true →
      CoinGecko.coins.fetchMarketChart coinId (JsVal.obj fields) =
        Except.ok (JsVal.obj (CoinGecko.chartParamSteps fields),
          CoinGecko._buildRequestOptions "GET"
            ("/coins/" ++ jsToString coinId ++ "/market_chart")
            (JsVal.obj (CoinGecko.chartParamSteps fields))) ∧
      "days=1" ∈ qsTokens (CoinGecko.chartParamSteps fields)) := by
  have husd : qsEscape "vs_currency" ++ "=" ++
      qsEscape (stringifyPrimitive (JsVal.str "usd")) = "vs_currency=usd" := by decide
  have hdays1 : qsEscape "days" ++ "=" ++
      qsEscape (stringifyPrimitive (JsVal.num 1)) = "days=1" := by decide
  refine ⟨?_, ?_, ?_⟩
  · intro fields h
    refine ⟨rfl, ?_⟩
    exact husd ▸ mem_qsTokens _ _ _ (marketsParamSteps_vs fields h).1 rfl
  · intro coinId fields hid h
    refine ⟨by simp [CoinGecko.coins.fetchMarketChart, hid, Utils.isObject,
      CoinGecko.jsFields], ?_⟩
    exact husd ▸ mem_qsTokens _ _ _ (chartParamSteps_vs fields h).1 rfl
  · intro coinId fields hid h
    refine ⟨by simp [CoinGecko.coins.fetchMarketChart, hid, Utils.isObject,
      CoinGecko.jsFields], ?_⟩
    exact hdays1 ▸ mem_qsTokens _ _ _ (chartParamSteps_days fields h).1 rfl

/-- C5 witness: with an empty params mapping, `coins.markets` defaults
`vs_currency`, and `coins.fetchMarketChart` defaults both `vs_currency` and
`days`. -/
theorem default_vs_currency_and_days_witness :
    "vs_currency=usd" ∈ qsTokens (CoinGecko.marketsParamSteps []) ∧
    "vs_currency=usd" ∈ qsTokens (CoinGecko.chartParamSteps []) ∧
    "days=1" ∈ qsTokens (CoinGecko.chartParamSteps []) :=
  ⟨(default_vs_currency_and_days.1 [] (by decide)).2,
   (default_vs_currency_and_days.2.1 (JsVal.str "bitcoin") [] (by decide) (by decide)).2,
   (default_vs_currency_and_days.2.2 (JsVal.str "bitcoin") [] (by decide) (by decide)).2⟩

/-! ## C6 -/

/-- C6: when `coins.markets` is given `ids` as an array, the array is
joined into one comma-separated string before query serialization, so the
query token for `ids` is the escaped join; for
`ids = ["bitcoin", "ethereum"]` that token is `ids=bitcoin%2Cethereum` —
the comma is percent-encoded. -/
theorem markets_joins_ids_array (fields : List (String × JsVal)) (xs : List JsVal)
    (hids : getField fields "ids" = JsVal.arr xs) :
    (getField (CoinGecko.marketsParamSteps fields) "ids" =
        JsVal.str (jsArrayJoin xs) ∧
      (qsEscape "ids" ++ "=" ++ qsEscape (jsArrayJoin xs)) ∈
        qsTokens (CoinGecko.marketsParamSteps fields) ∧
      CoinGecko.coins.markets (JsVal.obj fields) =
        Except.ok (JsVal.obj (CoinGecko.marketsParamSteps fields),
          CoinGecko._buildRequestOptions "GET" "/coins/markets"
            (JsVal.obj (CoinGecko.marketsParamSteps fields)))) ∧
    (xs = [JsVal.str "bitcoin", JsVal.str "ethereum"] →
      qsEscape "ids" ++ "=" ++ qsEscape (jsArrayJoin xs) = "ids=bitcoin%2Cethereum") := by
  obtain ⟨hget, hmem⟩ := marketsParamSteps_ids fields xs hids
  refine ⟨⟨hget, ?_, rfl⟩, ?_⟩
  · exact mem_qsTokens _ _ _ hmem rfl
  · intro hxs
    subst hxs
    have hjoin : jsArrayJoin [JsVal.str "bitcoin", JsVal.str "ethereum"] =
        "bitcoin,ethereum" := by
      simp [jsArrayJoin, jsJoinElem, joinComma]
    rw [hjoin]
    decide

/-- C6 witness: the concrete two-element array from the claim produces the
query token `ids=bitcoin%2Cethereum`. -/
theorem markets_joins_ids_array_witness :
    "ids=bitcoin%2Cethereum" ∈ qsTokens (CoinGecko.marketsParamSteps
      [("ids", JsVal.arr [JsVal.str "bitcoin", JsVal.str "ethereum"])]) := by
  have h := markets_joins_ids_array
    [("ids", JsVal.arr [JsVal.str "bitcoin", JsVal.str "ethereum"])]
    [JsVal.str "bitcoin", JsVal.str "ethereum"] rfl
  exact h.2 rfl ▸ h.1.2.1

/-! ## C7 -/

theorem qsTokens_eq_spec :
    ∀ fields : List (String × JsVal),
      (∀ kv ∈ fields, Utils.isArray kv.2 = false) →
      qsTokens fields = querySpecTokens fields
  | [], _ => rfl
  | (k, v) :: tl, h => by
    have hv : Utils.isArray v = false := h (k, v) (List.mem_cons_self _ _)
    have htl := qsTokens_eq_spec tl fun kv hkv => h kv (List.mem_cons_of_mem _ hkv)
    cases v <;> simp_all [qsTokens, querySpecTokens, Utils.isArray]

/-- C7: for every plain key-value mapping with primitive (non-array)
values — the spec's parameter mappings carry string/number/boolean
values — the code's query string is exactly the spec's description: the
percent-encoded `key=value` pairs present in the mapping, in the order
provided, joined by `&`, with both keys and values percent-encoded; and the
built path carries exactly that query string. -/
theorem query_string_matches_spec (fields : List (String × JsVal))
    (h : ∀ kv ∈ fields, Utils.isArray kv.2 = false) :
    qsStringify fields = querySpec fields ∧
    ∀ m p, (CoinGecko._buildRequestOptions m p (JsVal.obj fields)).path =
      "/api/v" ++ API_VERSION ++ p ++ "?" ++ querySpec fields := by
  have htok := qsTokens_eq_spec fields h
  constructor
  · rw [qsStringify, htok, querySpec]
  · intro m p
    rw [buildOptions_obj]
    show "/api/v" ++ API_VERSION ++ p ++ "?" ++ qsStringify fields = _
    rw [qsStringify, htok, querySpec]

/-- C7 witness: a concrete mapping with a key and a value that need
escaping (space, ampersand) and a numeric value; the query is the escaped
pairs in order. -/
theorem query_string_matches_spec_witness :
    qsStringify [("a b", JsVal.str "c&d"), ("n", JsVal.num 5)] =
      querySpec [("a b", JsVal.str "c&d"), ("n", JsVal.num 5)] ∧
    querySpec [("a b", JsVal.str "c&d"), ("n", JsVal.num 5)] = "a%20b=c%26d&n=5" :=
  ⟨(query_string_matches_spec [("a b", JsVal.str "c&d"), ("n", JsVal.num 5)]
      (by decide)).1,
   by decide⟩

/-! ## C9 -/

/-- C9: `coins.markets` and `coins.fetchMarketChart` write their defaults
into the caller-supplied params object in place. The embedding models the
in-place mutation by returning the caller's object as the first component
of the result: after the call it holds `vs_currency = "usd"` when the
defaulting test fired, an array `ids` has been replaced by the comma-joined
string, and an undefined `days` has been set to `1`. -/
theorem params_object_mutated_in_place :
    (∀ fields, CoinGecko.missingVsCurrency (JsVal.obj fields) = true →
      ∃ opts, CoinGecko.coins.markets (JsVal.obj fields) =
          Except.ok (JsVal.obj (CoinGecko.marketsParamSteps fields), opts) ∧
        getField (CoinGecko.marketsParamSteps fields) "vs_currency" = JsVal.str "usd") ∧
    (∀ fields xs, getField fields "ids" = JsVal.arr xs →
      ∃ opts, CoinGecko.coins.markets (JsVal.obj fields) =
          Except.ok (JsVal.obj (CoinGecko.marketsParamSteps fields), opts) ∧
        getField (CoinGecko.marketsParamSteps fields) "ids" = JsVal.str (jsArrayJoin xs)) ∧
    (∀ coinId fields, CoinGecko.invalidId coinId = false →
      CoinGecko.looseEqUndefined (getField fields "days") = true →
      ∃ opts, CoinGecko.coins.fetchMarketChart coinId (JsVal.obj fields) =
          Except.ok (JsVal.obj (CoinGecko.chartParamSteps fields), opts) ∧
        getField (CoinGecko.chartParamSteps fields) "days" = JsVal.num 1) := by
  refine ⟨?_, ?_, ?_⟩
  · intro fields h
    exact ⟨_, rfl, (marketsParamSteps_vs fields h).2⟩
  · intro fields xs h
    exact ⟨_, rfl, (marketsParamSteps_ids fields xs h).1⟩
  · intro coinId fields hid h
    refine ⟨CoinGecko._buildRequestOptions "GET"
      ("/coins/" ++ jsToString coinId ++ "/market_chart")
      (JsVal.obj (CoinGecko.chartParamSteps fields)), ?_,
      (chartParamSteps_days fields h).2⟩
    simp [CoinGecko.coins.fetchMarketChart, hid, Utils.isObject, CoinGecko.jsFields]

/-- C9 witness: the three observable writes at concrete inputs. -/
theorem params_object_mutated_in_place_witness :
    getField (CoinGecko.marketsParamSteps []) "vs_currency" = JsVal.str "usd" ∧
    getField (CoinGecko.marketsParamSteps
      [("ids", JsVal.arr [JsVal.str "bitcoin"])]) "ids" =
        JsVal.str (jsArrayJoin [JsVal.str "bitcoin"]) ∧
    getField (CoinGecko.chartParamSteps []) "days" = JsVal.num 1 := by
  obtain ⟨o1, -, h1⟩ := params_object_mutated_in_place.1 [] (by decide)
  obtain ⟨o2, -, h2⟩ := params_object_mutated_in_place.2.1
    [("ids", JsVal.arr [JsVal.str "bitcoin"])] [JsVal.str "bitcoin"] rfl
  obtain ⟨o3, -, h3⟩ := params_object_mutated_in_place.2.2
    (JsVal.str "bitcoin") [] (by decide) (by decide)
  exact ⟨h1, h2, h3⟩
